import Mathlib

/-!
# Verification of the `lhm` log-handle map (Mjolnir42/lhm, `lhm.go`)

Shallow embedding of the package: a `LogHandleMap` holds two string-keyed
maps (file writers and loggers, modelled as association lists with Go-map
replace-on-insert semantics), a base path, an optional rotation-trigger
channel (modelled by its identity, a `Nat`), and the `configured` flag.

External collaborators are modelled by their observable behaviour:
* `reopen.FileWriter` carries its path and a `generation` counter that a
  successful in-place `Reopen()` bumps; whether `Reopen()` / `NewFileWriter`
  fails is an environment function `String → Option Err` from the path.
* `sirupsen/logrus` loggers carry the filter level (numeric, as in logrus:
  0 = panic, 1 = fatal, 2 = error, 3 = warn, 4 = info, 5 = debug,
  6 = trace, delivery iff the logger level is ≥ the record level), the
  output sink, the formatter flags and whether `ExitFunc` was replaced by
  a no-op.  Emission is recorded as a list of `Event`s.
* Wall-clock time enters as an opaque RFC3339 `String` parameter `ts`.

Places where the Go code would dereference a nil map entry (e.g.
`getLoggerNolock` on a name with no logger) are modelled by `Option`.
-/

namespace LHM

abbrev Err := String

/-- logrus severity levels, numerically as in `sirupsen/logrus`. -/
abbrev Level := Nat

def panicLevel : Level := 0
def fatalLevel : Level := 1
def errorLevel : Level := 2
def warnLevel : Level := 3
def infoLevel : Level := 4
def debugLevel : Level := 5
def traceLevel : Level := 6

/-- The most verbose logrus level: `TraceLevel` (a trace-level logger
delivers records of every severity). -/
def mostVerboseLevel : Level := traceLevel

/-- Output sink of a logger: standard error (`os.Stderr` / `reopen.Stderr`)
or a file writer at a path. -/
inductive Sink where
  | stderr : Sink
  | file (path : String) : Sink
deriving DecidableEq

/-- A `logrus.Logger`, reduced to the state the package reads or writes:
filter level, output sink, formatter flags and whether `ExitFunc` was
replaced by a no-op closure. -/
structure Logger where
  level : Level
  out : Sink
  exitIsNoop : Bool
  noColors : Bool
  fullTimestamp : Bool
deriving DecidableEq

/-- `logrus.New()`: default level `InfoLevel`, output `os.Stderr`, default
`ExitFunc` (`os.Exit`, not a no-op), default formatter (colors allowed,
no forced full timestamps). -/
def logrusNew : Logger :=
  { level := infoLevel
    out := Sink.stderr
    exitIsNoop := false
    noColors := false
    fullTimestamp := false }

/-- A `reopen.FileWriter`: its path, plus a generation counter bumped by
each successful `Reopen()` so that "was fully reopened" is observable. -/
structure FileWriter where
  path : String
  generation : Nat
deriving DecidableEq

/-- Log-record payloads the package emits. -/
inductive Msg where
  | earlyStart (ts : String) : Msg
  | streamStart (name ts : String) : Msg
  | rotated (name ts : String) : Msg
  | printfMsg (format : String) : Msg
  | fatalMsg (m : String) : Msg
deriving DecidableEq

/-- Observable effects: a delivered log record (key of the emitting logger,
record severity, payload), an invocation of the rotation abort callback,
or a process-exit request (`ExitFunc(code)` when it is not a no-op). -/
inductive Event where
  | emit (key : String) (sev : Level) (m : Msg) : Event
  | abortCb (e : Err) : Event
  | exitProc (code : Nat) : Event
deriving DecidableEq

def Event.isAbort : Event → Bool
  | Event.abortCb _ => true
  | _ => false

/-- `logger.Infoln(msg)`: delivered iff the filter level admits info. -/
def Logger.infoln (lg : Logger) (key : String) (m : Msg) : List Event :=
  if infoLevel ≤ lg.level then [Event.emit key infoLevel m] else []

/-- `logger.Printf(format, ...)`: logrus logs `Printf` at info level. -/
def Logger.printfE (lg : Logger) (key : String) (format : String) : List Event :=
  if infoLevel ≤ lg.level then [Event.emit key infoLevel (Msg.printfMsg format)] else []

/-- `logger.Fatal(args...)`: logs at fatal level, then always calls
`logger.Exit(1)`, which runs `ExitFunc(1)` — observable only when
`ExitFunc` is not the no-op. -/
def Logger.fatalE (lg : Logger) (key : String) (m : String) : List Event :=
  (if fatalLevel ≤ lg.level then [Event.emit key fatalLevel (Msg.fatalMsg m)] else []) ++
    (if lg.exitIsNoop then [] else [Event.exitProc 1])

/-- Association-list lookup, first match (Go map read; `none` = `nil`). -/
def lookupA {α : Type} : List (String × α) → String → Option α
  | [], _ => none
  | (k, v) :: t, key => if k = key then some v else lookupA t key

/-- Association-list insert with Go-map semantics: replace in place when
the key exists, append otherwise. -/
def insertA {α : Type} : List (String × α) → String → α → List (String × α)
  | [], key, v => [(key, v)]
  | (k, w) :: t, key, v =>
    if k = key then (k, v) :: t else (k, w) :: insertA t key v

/-- Association-list removal of a key (Go `delete`). -/
def eraseA {α : Type} : List (String × α) → String → List (String × α)
  | [], _ => []
  | (k, w) :: t, key => if k = key then eraseA t key else (k, w) :: eraseA t key

/-- Go `strings.HasPrefix(s, pfx)`, on the underlying character lists. -/
def hasPfx (s pfx : String) : Bool :=
  pfx.data.isPrefixOf s.data

/-- `filepath.Join(bp, name)`, modelled as separator concatenation. -/
def joinP (bp name : String) : String :=
  bp ++ "/" ++ name

/-- The `LogHandleMap` struct of `lhm.go` (mutex elided: the embedding is
sequential, matching the exclusive-lock discipline the code enforces).
The signal channel is modelled by its identity. -/
structure LogHandleMap where
  hmap : List (String × FileWriter)
  lmap : List (String × Logger)
  bp : String
  signal : Option Nat
  configured : Bool
deriving DecidableEq

/-- `New(basepath)`: empty maps, base path stored, a fresh signal channel
(its identity supplied by the caller's environment) registered for
SIGUSR2, `configured = true`.  Returns the map and the channel. -/
def New (basepath : String) (chanId : Nat) : LogHandleMap × Nat :=
  ({ hmap := []
     lmap := []
     bp := basepath
     signal := some chanId
     configured := true }, chanId)

/-- The sentinel logger built by `Init()`: `logrus.New()` with output
`reopen.Stderr`, a no-op `ExitFunc`, the fixed non-colored full-timestamp
text formatter, and — after the startup line is emitted — `DebugLevel`. -/
def earlySentinel : Logger :=
  { level := debugLevel
    out := Sink.stderr
    exitIsNoop := true
    noColors := true
    fullTimestamp := true }

/-- `Init()`: barebones map, no writers, `configured = false`, no signal
channel; stores the sentinel under `__early` after emitting the
"Started early logging" line (emitted while the logger still has its
default info level, before `SetLevel(logrus.DebugLevel)`). -/
def Init (ts : String) : LogHandleMap × List Event :=
  let lg1 : Logger :=
    { level := infoLevel
      out := Sink.stderr
      exitIsNoop := true
      noColors := true
      fullTimestamp := true }
  let evs := Logger.infoln lg1 "__early" (Msg.earlyStart ts)
  ({ hmap := []
     lmap := [("__early", { lg1 with level := debugLevel })]
     bp := ""
     signal := none
     configured := false }, evs)

/-- `Setup(basepath)`: if already configured, return the stored channel and
do nothing else.  Otherwise call `Exit(0)` on the `__early` logger
(`none` models the nil-dereference when it is absent; the `exitProc`
event appears only if its `ExitFunc` is not the no-op), delete it, store
the base path, register a fresh channel, and set `configured`. -/
def Setup (x : LogHandleMap) (basepath : String) (fresh : Nat) :
    Option (LogHandleMap × Option Nat × List Event) :=
  if x.configured then some (x, x.signal, [])
  else
    match lookupA x.lmap "__early" with
    | none => none
    | some lg =>
      some ({ x with
                lmap := eraseA x.lmap "__early"
                bp := basepath
                signal := some fresh
                configured := true },
        some fresh,
        if lg.exitIsNoop then [] else [Event.exitProc 0])

/-- `EarlyPrintf(format, args...)`: no-op once configured; otherwise
`Printf` on the `__early` logger (`none` models the nil dereference when
the sentinel is absent). -/
def EarlyPrintf (x : LogHandleMap) (format : String) :
    Option (LogHandleMap × List Event) :=
  if x.configured then some (x, [])
  else
    match lookupA x.lmap "__early" with
    | none => none
    | some lg => some (x, Logger.printfE lg "__early" format)

/-- `EarlyFatal(args...)`: no-op once configured; otherwise `Fatal` on the
`__early` logger. -/
def EarlyFatal (x : LogHandleMap) (m : String) :
    Option (LogHandleMap × List Event) :=
  if x.configured then some (x, [])
  else
    match lookupA x.lmap "__early" with
    | none => none
    | some lg => some (x, Logger.fatalE lg "__early" m)

/-- `Add(key, fh, lg)`: registers the writer and the logger under `key`. -/
def Add (x : LogHandleMap) (key : String) (fh : FileWriter) (lg : Logger) :
    LogHandleMap :=
  { x with
      hmap := insertA x.hmap key fh
      lmap := insertA x.lmap key lg }

/-- `GetFileHandle(key)`: shared-lock lookup in the writer map. -/
def GetFileHandle (x : LogHandleMap) (key : String) : Option FileWriter :=
  lookupA x.hmap key

/-- `GetLogger(key)`: exclusive-lock lookup in the logger map. -/
def GetLogger (x : LogHandleMap) (key : String) : Option Logger :=
  lookupA x.lmap key

/-- `Del(key)`: removes the writer entry only; the logger map is untouched. -/
def Del (x : LogHandleMap) (key : String) : LogHandleMap :=
  { x with hmap := eraseA x.hmap key }

/-- The steps of `Open`, in source order, so that ordering claims are
statable: best-effort rename aside, writer creation, logger output and
formatter assignment, the "Started logfile" info line, `SetLevel`,
registration via `Add`. -/
inductive OpenAct where
  | renameOld (oldPath newPath : String) : OpenAct
  | createWriter (path : String) : OpenAct
  | setOutput : OpenAct
  | setFormat : OpenAct
  | emitStart (name ts : String) (sev : Level) : OpenAct
  | setLvl (l : Level) : OpenAct
  | addEntry (name : String) : OpenAct
deriving DecidableEq

/-- `Open(fname, lvl)`: rename any stale `fname.log` aside (best effort,
errors ignored), create the writer at `bp/fname.log` (failure decided by
the environment `envO`; on failure return the error with no
registration), build the logger (`logrus.New()`, output = writer, fixed
formatter), emit the "Started logfile" info line — note: emitted while
the logger still has its default info level — then `SetLevel(lvl)` and
`Add`.  Returns the new state, the action trace, and the error. -/
def Open (envO : String → Option Err) (ts : String) (x : LogHandleMap)
    (fname : String) (lvl : Level) :
    LogHandleMap × List OpenAct × Option Err :=
  let path := joinP x.bp (fname ++ ".log")
  let t0 : List OpenAct :=
    [OpenAct.renameOld path (path ++ "." ++ ts), OpenAct.createWriter path]
  match envO path with
  | some e => (x, t0, some e)
  | none =>
    let fh : FileWriter := { path := path, generation := 0 }
    let lg2 : Logger :=
      { logrusNew with
          out := Sink.file path
          noColors := true
          fullTimestamp := true }
    let emitActs : List OpenAct :=
      if infoLevel ≤ lg2.level then [OpenAct.emitStart fname ts infoLevel] else []
    let lg3 : Logger := { lg2 with level := lvl }
    (Add x fname fh lg3,
      t0 ++ [OpenAct.setOutput, OpenAct.setFormat] ++ emitActs ++
        [OpenAct.setLvl lvl, OpenAct.addEntry fname], none)

/-- One signal-triggered rotation pass over the writer map (the body of
`Reopen`'s `fileloop`, run under the exclusive lock taken by
`rangeLock`).  Walks the entries in map order; skips names starting with
`pfx`; reopens each remaining writer (failure decided by `env` from the
path — on failure, invoke the abort callback and stop, leaving the rest
untouched); on success bumps the writer generation in place, then via
`getLoggerNolock` saves the logger level, forces info, emits the
rotation marker, and restores the level.  `none` models the nil
dereference when a reopened name has no logger. -/
def passGo (env : String → Option Err) (pfx ts : String) :
    List (String × FileWriter) → List (String × Logger) →
    Option (List (String × FileWriter) × List (String × Logger) ×
      List Event × Option Err)
  | [], lmap => some ([], lmap, [], none)
  | (name, fw) :: rest, lmap =>
    if hasPfx name pfx then
      match passGo env pfx ts rest lmap with
      | none => none
      | some (h, lm, evs, ab) => some ((name, fw) :: h, lm, evs, ab)
    else
      match env fw.path with
      | some e => some ((name, fw) :: rest, lmap, [Event.abortCb e], some e)
      | none =>
        match lookupA lmap name with
        | none => none
        | some lg =>
          let lvl := lg.level
          let lgInfo : Logger := { lg with level := infoLevel }
          let evs0 := Logger.infoln lgInfo name (Msg.rotated name ts)
          let lgBack : Logger := { lgInfo with level := lvl }
          let lmap1 := insertA lmap name lgBack
          let fw1 : FileWriter := { fw with generation := fw.generation + 1 }
          match passGo env pfx ts rest lmap1 with
          | none => none
          | some (h, lm, evs, ab) => some ((name, fw1) :: h, lm, evs0 ++ evs, ab)

/-- One rotation pass at the `LogHandleMap` level: what a single signal
received by `Reopen(ignore, abortFunc)` triggers. -/
def reopenPass (env : String → Option Err) (pfx ts : String)
    (x : LogHandleMap) : Option (LogHandleMap × List Event × Option Err) :=
  match passGo env pfx ts x.hmap x.lmap with
  | none => none
  | some (h, lm, evs, ab) =>
    some ({ x with
              hmap := h
              lmap := lm }, evs, ab)

/-- `Reopen`'s infinite loop, observed after `n` delivered signals: `n`
successive rotation passes, events concatenated. -/
def reopenN (env : String → Option Err) (pfx ts : String) :
    Nat → LogHandleMap → Option (LogHandleMap × List Event)
  | 0, x => some (x, [])
  | n + 1, x =>
    match reopenPass env pfx ts x with
    | none => none
    | some (x1, evs, _) =>
      match reopenN env pfx ts n x1 with
      | none => none
      | some (x2, evs2) => some (x2, evs ++ evs2)

/-- The writer map after the successfully visited part of a pass: skipped
entries unchanged, others reopened in place (generation bumped). -/
def bumpList (pfx : String) (l : List (String × FileWriter)) :
    List (String × FileWriter) :=
  l.map fun p =>
    if hasPfx p.1 pfx then p
    else (p.1, { p.2 with generation := p.2.generation + 1 })

/-- The rotation markers emitted for the successfully visited part of a
pass: one info-severity record per non-skipped entry, in pass order. -/
def passMarkers (ts pfx : String) (l : List (String × FileWriter)) :
    List Event :=
  l.filterMap fun p =>
    if hasPfx p.1 pfx then none
    else some (Event.emit p.1 infoLevel (Msg.rotated p.1 ts))

/-! ## Association-list lemmas -/

theorem lookupA_insertA_self {α : Type} (l : List (String × α)) (k : String)
    (v : α) : lookupA (insertA l k v) k = some v := by
  induction l with
  | nil => simp [insertA, lookupA]
  | cons p t ih =>
    by_cases h : p.1 = k
    · simp [insertA, lookupA, h]
    · simpa [insertA, lookupA, h] using ih

theorem lookupA_eraseA_self {α : Type} (l : List (String × α)) (k : String) :
    lookupA (eraseA l k) k = none := by
  induction l with
  | nil => simp [eraseA, lookupA]
  | cons p t ih =>
    by_cases h : p.1 = k
    · simpa [eraseA, h] using ih
    · simpa [eraseA, lookupA, h] using ih

theorem insertA_lookup_eq {α : Type} (l : List (String × α)) (k : String)
    (v : α) (h : lookupA l k = some v) : insertA l k v = l := by
  induction l with
  | nil => simp [lookupA] at h
  | cons p t ih =>
    by_cases hk : p.1 = k
    · rw [lookupA] at h
      simp only [hk, if_pos rfl] at h
      cases p
      simp_all [insertA]
    · rw [lookupA] at h
      simp only [hk, if_neg hk] at h
      cases p
      simp_all [insertA]

/-- Forcing the level to info and then writing back the saved level leaves
the logger exactly as it was. -/
theorem restore_level (lg : Logger) :
    ({ { lg with level := infoLevel } with level := lg.level } : Logger) = lg := by
  cases lg
  rfl

/-! ## Claim theorems -/

/-- C3: for every name `n` and level `l`, if `Open(n, l)` returns without
error, then `GetFileHandle(n)` and `GetLogger(n)` return non-absent
handles (the writer and logger just created for `n`), and the returned
logger's filter level equals `l`. -/
theorem claim_C3_open_registers (envO : String → Option Err) (ts : String)
    (x : LogHandleMap) (n : String) (l : Level)
    (h : (Open envO ts x n l).2.2 = none) :
    GetFileHandle (Open envO ts x n l).1 n =
      some { path := joinP x.bp (n ++ ".log"), generation := 0 } ∧
    GetLogger (Open envO ts x n l).1 n =
      some { level := l
             out := Sink.file (joinP x.bp (n ++ ".log"))
             exitIsNoop := false
             noColors := true
             fullTimestamp := true } ∧
    (GetLogger (Open envO ts x n l).1 n).map Logger.level = some l := by
  rw [Open] at h ⊢
  cases henv : envO (joinP x.bp (n ++ ".log")) with
  | some e => rw [henv] at h; simp at h
  | none => simp [Add, GetFileHandle, GetLogger, lookupA_insertA_self, logrusNew]

/-- Witness for C3 at a concrete registry and environment. -/
theorem claim_C3_open_registers_witness :
    GetFileHandle (Open (fun _ => none) "T" (New "/log" 1).1 "app" errorLevel).1 "app" =
      some { path := joinP "/log" ("app" ++ ".log"), generation := 0 } ∧
    GetLogger (Open (fun _ => none) "T" (New "/log" 1).1 "app" errorLevel).1 "app" =
      some { level := errorLevel
             out := Sink.file (joinP "/log" ("app" ++ ".log"))
             exitIsNoop := false
             noColors := true
             fullTimestamp := true } ∧
    (GetLogger (Open (fun _ => none) "T" (New "/log" 1).1 "app" errorLevel).1 "app").map Logger.level = some errorLevel :=
  claim_C3_open_registers (fun _ => none) "T" (New "/log" 1).1 "app" errorLevel rfl

/-- C4: on an already-configured map, `Setup(p)` — for any `p`, including
one different from the stored base path — returns the established
trigger channel and performs no other action: the whole state (entry
maps, base path, configured flag) is returned unchanged and no event is
produced. -/
theorem claim_C4_setup_idempotent (x : LogHandleMap) (p : String)
    (fresh : Nat) (h : x.configured = true) :
    Setup x p fresh = some (x, x.signal, []) := by
  simp [Setup, h]

/-- Witness for C4: a map built by `New` with a different base path. -/
theorem claim_C4_setup_idempotent_witness :
    Setup (New "/a" 5).1 "/b" 9 = some ((New "/a" 5).1, some 5, []) :=
  claim_C4_setup_idempotent (New "/a" 5).1 "/b" 9 rfl

/-- C7 counterexample: the `__early` logger created by `Init` does not sit
at the most verbose level — `Init` sets `logrus.DebugLevel`, while the
most verbose logrus level is `TraceLevel`. -/
theorem claim_C7_counterexample :
    ¬ ((lookupA (Init "T").1.lmap "__early").map Logger.level
        = some mostVerboseLevel) := by
  decide

/-- C7 as amended: `Init` returns a map with `configured = false`, an empty
writer map, and exactly one entry keyed `__early` with no associated
file writer, whose logger targets standard error with a no-op exit
function and whose filter level is the debug level (one step below the
most verbose, trace). -/
theorem claim_C7_amended_init_sentinel (ts : String) :
    (Init ts).1.configured = false ∧
    (Init ts).1.hmap = [] ∧
    (Init ts).1.lmap = [("__early", earlySentinel)] ∧
    earlySentinel.out = Sink.stderr ∧
    earlySentinel.level = debugLevel ∧
    GetFileHandle (Init ts).1 "__early" = none :=
  ⟨rfl, rfl, rfl, rfl, rfl, rfl⟩

/-- C10: on the unconfigured map from `Init`, `EarlyFatal` logs the message
at fatal severity through the sentinel logger and returns normally with
the registry unchanged: the sentinel's exit function is the no-op, so no
process-exit event is produced. -/
theorem claim_C10_earlyfatal_no_exit (ts m : String) :
    EarlyFatal (Init ts).1 m =
      some ((Init ts).1, [Event.emit "__early" fatalLevel (Msg.fatalMsg m)]) ∧
    earlySentinel.exitIsNoop = true ∧
    GetLogger (Init ts).1 "__early" = some earlySentinel := by
  refine ⟨?_, rfl, rfl⟩
  rfl

/-- C5: `EarlyPrintf` and `EarlyFatal` deliver through the sentinel
`__early` logger exactly while `configured = false`: on any configured
map they return immediately, changing nothing and emitting nothing; on
an unconfigured map they go through the `__early` logger, and on the map
built by `Init` the message is actually delivered (info severity for
`EarlyPrintf`, fatal for `EarlyFatal`). -/
theorem claim_C5_early_logging (x : LogHandleMap) (f m ts : String) :
    (x.configured = true →
      EarlyPrintf x f = some (x, []) ∧ EarlyFatal x m = some (x, [])) ∧
    (x.configured = false → ∀ lg : Logger,
      lookupA x.lmap "__early" = some lg →
        EarlyPrintf x f = some (x, Logger.printfE lg "__early" f) ∧
        EarlyFatal x m = some (x, Logger.fatalE lg "__early" m)) ∧
    EarlyPrintf (Init ts).1 f =
      some ((Init ts).1, [Event.emit "__early" infoLevel (Msg.printfMsg f)]) ∧
    EarlyFatal (Init ts).1 m =
      some ((Init ts).1, [Event.emit "__early" fatalLevel (Msg.fatalMsg m)]) := by
  refine ⟨fun h => ?_, fun h lg hlg => ?_, rfl, rfl⟩
  · simp [EarlyPrintf, EarlyFatal, h]
  · simp [EarlyPrintf, EarlyFatal, h, hlg]

/-- Witness for C5: a configured map is a no-op; the `Init` map delivers. -/
theorem claim_C5_early_logging_witness :
    EarlyPrintf (New "/l" 3).1 "x" = some ((New "/l" 3).1, []) ∧
    EarlyFatal (New "/l" 3).1 "y" = some ((New "/l" 3).1, []) ∧
    EarlyFatal (Init "T").1 "boom" =
      some ((Init "T").1, [Event.emit "__early" fatalLevel (Msg.fatalMsg "boom")]) :=
  ⟨((claim_C5_early_logging (New "/l" 3).1 "x" "y" "T").1 rfl).1,
   ((claim_C5_early_logging (New "/l" 3).1 "x" "y" "T").1 rfl).2,
   (claim_C5_early_logging (Init "T").1 "x" "boom" "T").2.2.2⟩

/-- C6: for a name registered via `Add` (directly or by a successful
`Open`), `Del(n)` removes the entry from the handle sub-map only:
afterwards `GetFileHandle(n)` is absent while `GetLogger(n)` still
returns the registered logger, the logger sub-map being unchanged. -/
theorem claim_C6_del_keeps_logger (x : LogHandleMap) (n : String)
    (fh : FileWriter) (lg : Logger) (envO : String → Option Err)
    (ts : String) (l : Level) :
    (GetFileHandle (Del (Add x n fh lg) n) n = none ∧
     GetLogger (Del (Add x n fh lg) n) n = some lg ∧
     (Del (Add x n fh lg) n).lmap = (Add x n fh lg).lmap) ∧
    ((Open envO ts x n l).2.2 = none →
      GetFileHandle (Del (Open envO ts x n l).1 n) n = none ∧
      GetLogger (Del (Open envO ts x n l).1 n) n = GetLogger (Open envO ts x n l).1 n ∧
      (GetLogger (Open envO ts x n l).1 n).isSome = true ∧
      (Del (Open envO ts x n l).1 n).lmap = (Open envO ts x n l).1.lmap) := by
  constructor
  · exact ⟨lookupA_eraseA_self _ _, lookupA_insertA_self _ _ _, rfl⟩
  · intro h
    rw [Open] at h ⊢
    cases henv : envO (joinP x.bp (n ++ ".log")) with
    | some e => rw [henv] at h; simp at h
    | none =>
      refine ⟨lookupA_eraseA_self _ _, rfl, ?_, rfl⟩
      simp [Add, GetLogger, lookupA_insertA_self]

/-- Witness for C6 at a concrete registry. -/
theorem claim_C6_del_keeps_logger_witness :
    (GetFileHandle (Del (Add (New "/l" 2).1 "a" { path := "p", generation := 0 } logrusNew) "a") "a" = none ∧
     GetLogger (Del (Add (New "/l" 2).1 "a" { path := "p", generation := 0 } logrusNew) "a") "a" = some logrusNew ∧
     (Del (Add (New "/l" 2).1 "a" { path := "p", generation := 0 } logrusNew) "a").lmap =
       (Add (New "/l" 2).1 "a" { path := "p", generation := 0 } logrusNew).lmap) ∧
    (GetFileHandle (Del (Open (fun _ => none) "T" (New "/l" 2).1 "a" infoLevel).1 "a") "a" = none ∧
     GetLogger (Del (Open (fun _ => none) "T" (New "/l" 2).1 "a" infoLevel).1 "a") "a" =
       GetLogger (Open (fun _ => none) "T" (New "/l" 2).1 "a" infoLevel).1 "a" ∧
     (GetLogger (Open (fun _ => none) "T" (New "/l" 2).1 "a" infoLevel).1 "a").isSome = true ∧
     (Del (Open (fun _ => none) "T" (New "/l" 2).1 "a" infoLevel).1 "a").lmap =
       (Open (fun _ => none) "T" (New "/l" 2).1 "a" infoLevel).1.lmap) :=
  ⟨(claim_C6_del_keeps_logger (New "/l" 2).1 "a" { path := "p", generation := 0 }
      logrusNew (fun _ => none) "T" infoLevel).1,
   (claim_C6_del_keeps_logger (New "/l" 2).1 "a" { path := "p", generation := 0 }
      logrusNew (fun _ => none) "T" infoLevel).2 rfl⟩

/-- C8 counterexample: in a concrete successful `Open`, no position with
`SetLevel(l)` comes before the "stream started" marker — the code emits
the marker first and only then sets the level. -/
theorem claim_C8_counterexample :
    ¬ ∃ i j : Fin (Open (fun _ => none) "T" (New "/l" 1).1 "n" debugLevel).2.1.length,
        i < j ∧
        (Open (fun _ => none) "T" (New "/l" 1).1 "n" debugLevel).2.1.get i
          = OpenAct.setLvl debugLevel ∧
        (Open (fun _ => none) "T" (New "/l" 1).1 "n" debugLevel).2.1.get j
          = OpenAct.emitStart "n" "T" infoLevel := by
  decide

/-- C8 as amended: in a successful `Open(n, l)` the single informational
"stream started" marker is emitted while the logger still carries its
default informational level, and only afterwards is the logger set to
the requested level `l` — the full action trace in order. -/
theorem claim_C8_amended_marker_before_setlevel (envO : String → Option Err)
    (ts : String) (x : LogHandleMap) (n : String) (l : Level)
    (h : envO (joinP x.bp (n ++ ".log")) = none) :
    (Open envO ts x n l).2.1 =
      [OpenAct.renameOld (joinP x.bp (n ++ ".log"))
         (joinP x.bp (n ++ ".log") ++ "." ++ ts),
       OpenAct.createWriter (joinP x.bp (n ++ ".log")),
       OpenAct.setOutput, OpenAct.setFormat,
       OpenAct.emitStart n ts infoLevel,
       OpenAct.setLvl l, OpenAct.addEntry n] := by
  rw [Open, h]
  simp [logrusNew]

/-- Witness for C8's amended theorem at a concrete open. -/
theorem claim_C8_amended_marker_before_setlevel_witness :
    (Open (fun _ => none) "T" (New "/l" 1).1 "n" debugLevel).2.1 =
      [OpenAct.renameOld (joinP "/l" ("n" ++ ".log"))
         (joinP "/l" ("n" ++ ".log") ++ "." ++ "T"),
       OpenAct.createWriter (joinP "/l" ("n" ++ ".log")),
       OpenAct.setOutput, OpenAct.setFormat,
       OpenAct.emitStart "n" "T" infoLevel,
       OpenAct.setLvl debugLevel, OpenAct.addEntry "n"] :=
  claim_C8_amended_marker_before_setlevel (fun _ => none) "T" (New "/l" 1).1
    "n" debugLevel rfl

/-! ## Rotation-pass lemmas -/

/-- The empty string is a prefix of every name (`strings.HasPrefix(s, "")`
is always true). -/
theorem hasPfx_empty (s : String) : hasPfx s "" = true := by
  show "".data.isPrefixOf s.data = true
  rw [show "".data = ([] : List Char) from rfl]
  cases s.data <;> rfl

/-- A pass with the empty ignore prefix skips every entry: state untouched,
no events, no abort. -/
theorem passGo_empty_pfx (env : String → Option Err) (ts : String)
    (l : List (String × FileWriter)) (lmap : List (String × Logger)) :
    passGo env "" ts l lmap = some (l, lmap, [], none) := by
  induction l with
  | nil => rfl
  | cons p rest ih =>
    obtain ⟨name, fw⟩ := p
    rw [passGo, if_pos (hasPfx_empty name), ih]

/-- C9: with `ignorePrefix = ""` every registered name matches the prefix,
so a triggered pass — and any number `n` of successive triggered passes
— skips every entry: no writer is reopened, no marker or abort is
emitted, and the registry is returned unchanged. -/
theorem claim_C9_empty_ignore_skips_all (env : String → Option Err)
    (ts : String) (x : LogHandleMap) (n : Nat) :
    reopenPass env "" ts x = some (x, [], none) ∧
    reopenN env "" ts n x = some (x, []) := by
  have hpass : ∀ y : LogHandleMap, reopenPass env "" ts y = some (y, [], none) := by
    intro y
    rw [reopenPass, passGo_empty_pfx]
  refine ⟨hpass x, ?_⟩
  induction n with
  | zero => rfl
  | succ k ih =>
    rw [reopenN, hpass x]
    simp [ih]

/-- A pass in which every non-skipped entry reopens successfully and has a
logger: every non-skipped writer is reopened in place, the logger map
comes back exactly as it was (levels forced to info and restored), and
the events are precisely the rotation markers, in pass order. -/
theorem passGo_all_ok (env : String → Option Err) (pfx ts : String)
    (l : List (String × FileWriter)) (lmap : List (String × Logger))
    (hok : ∀ p ∈ l, hasPfx p.1 pfx = false → env p.2.path = none)
    (hlg : ∀ p ∈ l, hasPfx p.1 pfx = false → (lookupA lmap p.1).isSome = true) :
    passGo env pfx ts l lmap =
      some (bumpList pfx l, lmap, passMarkers ts pfx l, none) := by
  induction l with
  | nil => rfl
  | cons p rest ih =>
    obtain ⟨name, fw⟩ := p
    have hok' : ∀ q ∈ rest, hasPfx q.1 pfx = false → env q.2.path = none :=
      fun q hq => hok q (List.mem_cons_of_mem _ hq)
    have hlg' : ∀ q ∈ rest, hasPfx q.1 pfx = false →
        (lookupA lmap q.1).isSome = true :=
      fun q hq => hlg q (List.mem_cons_of_mem _ hq)
    rw [passGo]
    by_cases hskip : hasPfx name pfx
    · rw [if_pos hskip, ih hok' hlg']
      simp [bumpList, passMarkers, hskip]
    · rw [if_neg hskip]
      have henv : env fw.path = none :=
        hok (name, fw) (List.mem_cons_self _ _) (Bool.of_not_eq_true hskip)
      rw [henv]
      obtain ⟨lg, hlgeq⟩ := Option.isSome_iff_exists.mp
        (hlg (name, fw) (List.mem_cons_self _ _) (Bool.of_not_eq_true hskip))
      rw [hlgeq]
      simp only [restore_level, insertA_lookup_eq lmap name lg hlgeq]
      rw [ih hok' hlg']
      simp [bumpList, passMarkers, hskip, Logger.infoln, infoLevel]

/-- Every event in the marker list is a rotation marker for some listed
entry's key. -/
theorem mem_passMarkers (ts pfx : String) (l : List (String × FileWriter))
    (ev : Event) (h : ev ∈ passMarkers ts pfx l) :
    ∃ p ∈ l, ev = Event.emit p.1 infoLevel (Msg.rotated p.1 ts) := by
  rw [passMarkers] at h
  obtain ⟨p, hp, hev⟩ := List.mem_filterMap.mp h
  by_cases hs : hasPfx p.1 pfx
  · simp [hs] at hev
  · refine ⟨p, hp, ?_⟩
    simp [hs] at hev
    exact hev.symm

/-- Marker list of a pass whose first entry matches the ignore prefix. -/
theorem passMarkers_cons_skip (ts pfx : String) (q : String × FileWriter)
    (rest : List (String × FileWriter)) (h : hasPfx q.1 pfx = true) :
    passMarkers ts pfx (q :: rest) = passMarkers ts pfx rest := by
  simp [passMarkers, List.filterMap_cons, h]

/-- Marker list of a pass whose first entry is rotated. -/
theorem passMarkers_cons_go (ts pfx : String) (q : String × FileWriter)
    (rest : List (String × FileWriter)) (h : hasPfx q.1 pfx = false) :
    passMarkers ts pfx (q :: rest) =
      Event.emit q.1 infoLevel (Msg.rotated q.1 ts) :: passMarkers ts pfx rest := by
  simp [passMarkers, List.filterMap_cons, h]

/-- With unique registration names, the pass emits exactly one rotation
marker for each non-skipped entry. -/
theorem passMarkers_count_one (ts pfx : String)
    (l : List (String × FileWriter)) (hnd : (l.map Prod.fst).Nodup)
    (p : String × FileWriter) (hp : p ∈ l) (hs : hasPfx p.1 pfx = false) :
    (passMarkers ts pfx l).count
      (Event.emit p.1 infoLevel (Msg.rotated p.1 ts)) = 1 := by
  induction l with
  | nil => cases hp
  | cons q rest ih =>
    rw [List.map_cons, List.nodup_cons] at hnd
    have hqrest : q.1 ∉ rest.map Prod.fst := hnd.1
    rcases List.mem_cons.mp hp with hpq | hprest
    · subst hpq
      have hzero :
          (passMarkers ts pfx rest).count
            (Event.emit p.1 infoLevel (Msg.rotated p.1 ts)) = 0 := by
        rw [List.count_eq_zero]
        intro hmem
        obtain ⟨r, hr, hev⟩ := mem_passMarkers ts pfx rest _ hmem
        injection hev with h1 h2 h3
        exact hqrest (h1 ▸ List.mem_map_of_mem Prod.fst hr)
      rw [passMarkers_cons_go ts pfx p rest hs, List.count_cons]
      simp [hzero]
    · have hne : p.1 ≠ q.1 := by
        intro he
        exact hqrest (he ▸ List.mem_map_of_mem Prod.fst hprest)
      have hrest := ih hnd.2 hprest
      by_cases hq : hasPfx q.1 pfx
      · rw [passMarkers_cons_skip ts pfx q rest hq]
        exact hrest
      · rw [passMarkers_cons_go ts pfx q rest (Bool.of_not_eq_true hq),
          List.count_cons]
        simp [hrest, Ne.symm hne]

/-- C2: in a triggered rotation pass in which every visited (non-skipped)
entry reopens successfully, each such entry's writer is reopened in
place and exactly one "reopened for rotation" marker carrying the
current UTC timestamp is emitted at informational severity for it; the
logger map — in particular every logger's filter level — comes out of
the pass exactly as it went in. -/
theorem claim_C2_rotation_success (env : String → Option Err)
    (pfx ts : String) (x : LogHandleMap)
    (hok : ∀ p ∈ x.hmap, hasPfx p.1 pfx = false → env p.2.path = none)
    (hlg : ∀ p ∈ x.hmap, hasPfx p.1 pfx = false →
      (lookupA x.lmap p.1).isSome = true)
    (hnd : (x.hmap.map Prod.fst).Nodup) :
    reopenPass env pfx ts x =
      some ({ x with hmap := bumpList pfx x.hmap },
        passMarkers ts pfx x.hmap, none) ∧
    ({ x with hmap := bumpList pfx x.hmap }).lmap = x.lmap ∧
    ∀ p ∈ x.hmap, hasPfx p.1 pfx = false →
      (passMarkers ts pfx x.hmap).count
        (Event.emit p.1 infoLevel (Msg.rotated p.1 ts)) = 1 := by
  refine ⟨?_, rfl, fun p hp hs => passMarkers_count_one ts pfx x.hmap hnd p hp hs⟩
  rw [reopenPass, passGo_all_ok env pfx ts x.hmap x.lmap hok hlg]

/-- A pass that hits a failing reopen: every non-skipped entry before the
failing one is reopened in place and marked, the abort callback fires
with the error, and everything from the failing entry on — including
the failing writer itself — is left untouched, with the pass over. -/
theorem passGo_abort (env : String → Option Err) (pfx ts : String)
    (lmap : List (String × Logger)) (l1 : List (String × FileWriter))
    (nm : String) (fw : FileWriter) (l2 : List (String × FileWriter))
    (e : Err) (hnm : hasPfx nm pfx = false) (hfail : env fw.path = some e)
    (hok : ∀ p ∈ l1, hasPfx p.1 pfx = false → env p.2.path = none)
    (hlg : ∀ p ∈ l1, hasPfx p.1 pfx = false →
      (lookupA lmap p.1).isSome = true) :
    passGo env pfx ts (l1 ++ (nm, fw) :: l2) lmap =
      some (bumpList pfx l1 ++ (nm, fw) :: l2, lmap,
        passMarkers ts pfx l1 ++ [Event.abortCb e], some e) := by
  induction l1 with
  | nil =>
    rw [List.nil_append, passGo, if_neg (by simp [hnm]), hfail]
    simp [bumpList, passMarkers]
  | cons p rest ih =>
    obtain ⟨name, fwp⟩ := p
    have hok' : ∀ q ∈ rest, hasPfx q.1 pfx = false → env q.2.path = none :=
      fun q hq => hok q (List.mem_cons_of_mem _ hq)
    have hlg' : ∀ q ∈ rest, hasPfx q.1 pfx = false →
        (lookupA lmap q.1).isSome = true :=
      fun q hq => hlg q (List.mem_cons_of_mem _ hq)
    rw [List.cons_append, passGo]
    by_cases hskip : hasPfx name pfx
    · rw [if_pos hskip, ih hok' hlg']
      rw [passMarkers_cons_skip ts pfx (name, fwp) rest hskip]
      simp [bumpList, hskip]
    · rw [if_neg hskip]
      have henv : env fwp.path = none :=
        hok (name, fwp) (List.mem_cons_self _ _) (Bool.of_not_eq_true hskip)
      rw [henv]
      obtain ⟨lg, hlgeq⟩ := Option.isSome_iff_exists.mp
        (hlg (name, fwp) (List.mem_cons_self _ _) (Bool.of_not_eq_true hskip))
      rw [hlgeq]
      simp only [restore_level, insertA_lookup_eq lmap name lg hlgeq]
      rw [ih hok' hlg']
      rw [passMarkers_cons_go ts pfx (name, fwp) rest (Bool.of_not_eq_true hskip)]
      simp [bumpList, hskip, Logger.infoln, infoLevel]

/-- C1: if, in a signal-triggered rotation pass, the writer of a
non-skipped entry fails to reopen with error `e`, the abort callback is
invoked exactly once, with `e`; every non-skipped entry visited before
the failing one has been reopened in place and has emitted its marker;
the failing entry and every entry after it keep their pre-pass writer
state and emit no marker; the logger map is untouched; and the pass
ends there — no retry happens until the next trigger. -/
theorem claim_C1_rotation_abort (env : String → Option Err)
    (pfx ts : String) (x : LogHandleMap) (l1 : List (String × FileWriter))
    (nm : String) (fw : FileWriter) (l2 : List (String × FileWriter))
    (e : Err) (hx : x.hmap = l1 ++ (nm, fw) :: l2)
    (hnm : hasPfx nm pfx = false) (hfail : env fw.path = some e)
    (hok : ∀ p ∈ l1, hasPfx p.1 pfx = false → env p.2.path = none)
    (hlg : ∀ p ∈ l1, hasPfx p.1 pfx = false →
      (lookupA x.lmap p.1).isSome = true) :
    reopenPass env pfx ts x =
      some ({ x with hmap := bumpList pfx l1 ++ (nm, fw) :: l2 },
        passMarkers ts pfx l1 ++ [Event.abortCb e], some e) ∧
    (passMarkers ts pfx l1 ++ [Event.abortCb e]).countP Event.isAbort = 1 ∧
    ({ x with hmap := bumpList pfx l1 ++ (nm, fw) :: l2 }).lmap = x.lmap := by
  refine ⟨?_, ?_, rfl⟩
  · rw [reopenPass, hx,
      passGo_abort env pfx ts x.lmap l1 nm fw l2 e hnm hfail hok hlg]
  · rw [List.countP_append]
    have h0 : (passMarkers ts pfx l1).countP Event.isAbort = 0 := by
      rw [List.countP_eq_zero]
      intro ev hev
      obtain ⟨r, hr, hrev⟩ := mem_passMarkers ts pfx l1 ev hev
      subst hrev
      simp [Event.isAbort]
    simp [h0, Event.isAbort, List.countP_cons]

/-! ## Concrete registry fixtures for the witnesses -/

def fwA : FileWriter := { path := "/l/a.log", generation := 0 }

def fwB : FileWriter := { path := "/l/b.log", generation := 0 }

def fwC : FileWriter := { path := "/l/c.log", generation := 0 }

/-- A logger whose filter level is warn: verbose enough to show that the
rotation marker is forced through regardless of the configured level. -/
def lgW : Logger := { logrusNew with level := warnLevel }

/-- A configured registry with three named streams. -/
def xABC : LogHandleMap :=
  { hmap := [("a", fwA), ("b", fwB), ("c", fwC)]
    lmap := [("a", lgW), ("b", lgW), ("c", lgW)]
    bp := "/l"
    signal := some 1
    configured := true }

/-- Reopen environment in which every reopen succeeds. -/
def envNone : String → Option Err := fun _ => none

/-- Reopen environment in which exactly stream `b`'s reopen fails. -/
def envFailB : String → Option Err :=
  fun s => if s = "/l/b.log" then some "boom" else none

/-- Witness for C2: all three streams reopen, each emits one marker. -/
theorem claim_C2_rotation_success_witness :
    reopenPass envNone "zz" "T" xABC =
      some ({ xABC with hmap := bumpList "zz" xABC.hmap },
        passMarkers "T" "zz" xABC.hmap, none) ∧
    ({ xABC with hmap := bumpList "zz" xABC.hmap }).lmap = xABC.lmap ∧
    ∀ p ∈ xABC.hmap, hasPfx p.1 "zz" = false →
      (passMarkers "T" "zz" xABC.hmap).count
        (Event.emit p.1 infoLevel (Msg.rotated p.1 "T")) = 1 :=
  claim_C2_rotation_success envNone "zz" "T" xABC (by decide) (by decide)
    (by decide)

/-- Witness for C1: `b`'s reopen fails; `a` was reopened and marked, `c`
was never touched, the abort callback fired once with the error. -/
theorem claim_C1_rotation_abort_witness :
    reopenPass envFailB "zz" "T" xABC =
      some ({ xABC with hmap := bumpList "zz" [("a", fwA)] ++ ("b", fwB) :: [("c", fwC)] },
        passMarkers "T" "zz" [("a", fwA)] ++ [Event.abortCb "boom"], some "boom") ∧
    (passMarkers "T" "zz" [("a", fwA)] ++ [Event.abortCb "boom"]).countP
      Event.isAbort = 1 ∧
    ({ xABC with hmap := bumpList "zz" [("a", fwA)] ++ ("b", fwB) :: [("c", fwC)] }).lmap
      = xABC.lmap :=
  claim_C1_rotation_abort envFailB "zz" "T" xABC [("a", fwA)] "b" fwB
    [("c", fwC)] "boom" rfl (by decide) (by decide) (by decide) (by decide)

end LHM
